import Mathlib

/-!
Verification of the BytePS TensorFlow binding layer
(`byteps/tensorflow/__init__.py`).

The included Python source is a glue layer over an external communication
engine (`byteps.tensorflow.ops`, `byteps.tensorflow.compression`), so the
engine-side operations (`_push_pull`, `_push_pull_xla`, `_sync_all_tensors`,
the barrier/sync ops, the default compression) are modelled from the
specification, while every function of `__init__.py` itself is translated
directly from the source.

Modelling conventions:
- Tensor elements are rationals (idealised floating values of the tensor's
  element type); the element type (`dtype`) is carried alongside the data.
- A completion-marker handle is a pair of rationals (the reshaped handle
  tensor's first two entries, the only ones the source ever reads).
- Race outcomes (the marker values a handle carries at sync time, the order
  in which operations complete) are inputs of the embedded functions, so
  theorems quantify over them.
- TensorFlow graph-name plumbing (`tensor_name`, `scope`) carries no data
  and is omitted from the return values.
-/

namespace BytePS

/-- Element types that appear in the source (`tf.float16` casting in the
one-shot wrapper); `float32`/`float64` stand for the remaining dense dtypes. -/
inductive DType
  | float16
  | float32
  | float64
deriving DecidableEq

/-- A dense tensor: an element type together with its (flattened) elements,
idealised as rationals. -/
structure Tensor where
  dtype : DType
  data : List ℚ
deriving DecidableEq

/-- `tf.dtypes.cast(t, d)`: changes the element type (values idealised as
exact). -/
def Tensor.castTo (d : DType) (t : Tensor) : Tensor := ⟨d, t.data⟩

/-- `tensor + 1` in TensorFlow broadcasts: add 1 to every element. -/
def tensorAddOne (t : Tensor) : Tensor := ⟨t.dtype, t.data.map (· + 1)⟩

/-- `tf.math.divide(tensor, q)` with `q` already cast into the tensor's own
element type: divide every element by `q`. -/
def tensorDiv (t : Tensor) (q : ℚ) : Tensor := ⟨t.dtype, t.data.map (· / q)⟩

/-- The reduction operators are plain strings in the source
(`Average = "Average"` etc.). -/
def Average : String := "Average"

/-- Source: `Sum = "Sum"`. -/
def Sum : String := "Sum"

/-- Source: `Adasum = "Adasum"`. -/
def Adasum : String := "Adasum"

/-- A compression strategy: `compress(tensor) -> (compressed, context)` and
`decompress(compressed, context) -> tensor`.  The context records what the
compressor needs for decompression (for the built-in strategies, at most the
original element type). -/
structure Compression where
  compress : Tensor → Tensor × Option DType
  decompress : Tensor → Option DType → Tensor

/-- Modelled from the spec: the default compression is the identity
("Default is identity (no compression)"); `byteps.tensorflow.compression`
is outside the included source. -/
def Compression.none : Compression :=
  ⟨fun t => (t, Option.none), fun t _ => t⟩

/-- The number of participating ranks as seen from one rank: this rank plus
the other contributors.  `others` throughout is the list of wire-level
contributions of the other `size() - 1` ranks for the tensor at hand. -/
def bps_size (others : List Tensor) : Nat := others.length + 1

/-- Elementwise sum of this rank's elements with every other contribution. -/
def bps_reduce (mine : List ℚ) (others : List (List ℚ)) : List ℚ :=
  others.foldl (fun acc o => List.zipWith (· + ·) acc o) mine

/-- Modelled from the spec: the engine op `_push_pull` (in
`byteps.tensorflow.ops`, outside the included source) performs the all-reduce:
"every participant contributes a tensor, all receive the reduced (summed)
result".  It returns the elementwise sum of this rank's tensor with the other
ranks' wire contributions; the result keeps this rank's element type. -/
def bps_push_pull (others : List Tensor) (mine : Tensor) : Tensor :=
  ⟨mine.dtype, bps_reduce mine.data (others.map Tensor.data)⟩

/-- Modelled from the spec: `_push_pull_xla` performs the same all-reduce but
additionally returns a completion-marker handle ("carries at minimum a
monotonically comparable completion marker").  The marker values are a race
outcome and enter as the parameter `h`. -/
def bps_push_pull_xla (others : List Tensor) (mine : Tensor) (h : ℚ × ℚ) :
    Tensor × (ℚ × ℚ) :=
  (bps_push_pull others mine, h)

/-- Modelled from the spec: `_push_pull_xla_v2`, the second completion-tracking
strategy behind the same interface; same reduction, same marker handle. -/
def bps_push_pull_xla_v2 (others : List Tensor) (mine : Tensor) (h : ℚ × ℚ) :
    Tensor × (ℚ × ℚ) :=
  (bps_push_pull others mine, h)

/-- Modelled from the spec: `handle_average_backwards_compatibility` (in
`byteps.tensorflow.ops`, outside the included source) resolves the deprecated
`average` flag against `op`; per the source docstring the operation "Defaults
to Average if None is given". -/
def handle_average_backwards_compatibility (op : Option String)
    (average : Option Bool) : String :=
  match op with
  | some o => o
  | Option.none =>
    match average with
    | some b => if b then Average else Sum
    | Option.none => Average

/-- Source: `true_op = Sum if op == Average else op` — the translated
operator computed by every push-pull variant (and, as in the source, never
passed on to the engine). -/
def push_pull_true_op (op : String) : String :=
  if op = Average then Sum else op

/-- Translation of `push_pull` (source lines 443-484): resolve `op`, compute
`true_op` (unused, as in the source), compress, call the engine, decompress,
then divide by `size()` exactly when `op == Average` and async mode is off. -/
def push_pull (compression : Compression) (others : List Tensor) (tensor : Tensor)
    (op : Option String) (average : Option Bool) (enable_async : Bool) : Tensor :=
  let op := handle_average_backwards_compatibility op average
  let _true_op := push_pull_true_op op
  let byteps_size : ℚ := (bps_size others : ℚ)
  let tc := compression.compress tensor
  let tensor_compressed := tc.1
  let ctx := tc.2
  let summed_tensor_compressed := bps_push_pull others tensor_compressed
  let summed_tensor := compression.decompress summed_tensor_compressed ctx
  if !enable_async then
    if op = Average then tensorDiv summed_tensor byteps_size else summed_tensor
  else
    summed_tensor

/-- The compressed-transfer-decompressed value of a push-pull, before the
operator post-processing: `decompress(engine(compress(t)))`.  It does not
depend on the requested operator. -/
def push_pull_raw (compression : Compression) (others : List Tensor)
    (tensor : Tensor) : Tensor :=
  compression.decompress (bps_push_pull others (compression.compress tensor).1)
    (compression.compress tensor).2

/-- Optimizer kinds distinguished by the `DistributedOptimizer` factory. -/
inductive OptimizerKind
  | legacy
  | keras
  | other
deriving DecidableEq

/-- Translation of the `DistributedOptimizer` factory (source lines 788-807):
Adasum is rejected with a `ValueError` for both legacy and Keras optimizers,
as is `backward_passes_per_step > 1`; any other optimizer kind is rejected
outright. -/
def DistributedOptimizer (kind : OptimizerKind) (op : String)
    (backward_passes_per_step : Nat) : Except String Unit :=
  match kind with
  | OptimizerKind.legacy =>
    if op = Adasum then
      Except.error "op == Adasum is not supported yet with "
    else if backward_passes_per_step > 1 then
      Except.error "backward_passes_per_step>1 is not supported yet with op != Adasum"
    else
      Except.ok ()
  | OptimizerKind.keras =>
    if op = Adasum then
      Except.error "op == Adasum is not supported yet with Keras"
    else if backward_passes_per_step > 1 then
      Except.error "backward_passes_per_step > 1 is not supported yet with Keras"
    else
      Except.ok ()
  | OptimizerKind.other =>
    Except.error "Provided optimizer doesn't inherit from either legacy TensorFlow or Keras optimizer"

/-- Translation of the async-mode configuration check in
`_DistributedOptimizer.__init__` (source lines 671-675):
`BYTEPS_ENABLE_ASYNC` enables async mode when its integer value is nonzero,
and then `DMLC_NUM_WORKER` must parse to an integer greater than 1
(`assert int(os.getenv('DMLC_NUM_WORKER')) > 1`); an unset `DMLC_NUM_WORKER`
makes `int(None)` raise.  Returns the configured `enable_async` flag. -/
def distributed_optimizer_init_async_check (byteps_enable_async : Int)
    (dmlc_num_worker : Option Int) : Except String Bool :=
  if byteps_enable_async ≠ 0 then
    match dmlc_num_worker with
    | Option.none =>
      Except.error "TypeError: int() argument must not be None"
    | some w =>
      if w > 1 then Except.ok true
      else Except.error "Async is only valid for distributed training"
  else
    Except.ok false

/-- Translation of `_DistributedOptimizer.compute_gradients` (source lines
697-709): push-pull the gradients only when `size() > 1` and async mode is
off, otherwise return the locally computed gradients unchanged.  Variables
are opaque identifiers; `pp_grads` is the bound `_push_pull_grads` closure. -/
def compute_gradients (sz : Nat) (enable_async : Bool)
    (pp_grads : List Tensor → List Tensor)
    (gradients : List (Tensor × Nat)) : List (Tensor × Nat) :=
  if sz > 1 ∧ enable_async = false then
    let grads := gradients.map Prod.fst
    let vars := gradients.map Prod.snd
    (pp_grads grads).zip vars
  else
    gradients

/-- Translation of `_DistributedGradientTape.gradient` (source lines 923-929):
push-pull only when `size() > 1`, otherwise return the local gradients. -/
def distributed_gradient_tape_gradient (sz : Nat)
    (pp_grads : List Tensor → List Tensor) (gradients : List Tensor) :
    List Tensor :=
  if sz > 1 then pp_grads gradients else gradients

/-- Modelled from the spec: the engine op `broadcast` (outside the included
source) is one-to-all with no reduction — every rank receives the root rank's
tensor, supplied here as `rootCopy`. -/
def bps_broadcast (rootCopy : Tensor) : Tensor := rootCopy

/-- Translation of `broadcast_variables_regular` (source lines 513-525): a
no-op (`None`) when `size() <= 1`, otherwise the group of assignments writing
each broadcast result over the local variable.  `rootVals` are the root
rank's values of the variables (pairs arise from the encompassing zip). -/
def broadcast_variables_regular (sz : Nat) (var_list : List Tensor)
    (rootVals : List Tensor) : Option (List Tensor) :=
  if sz ≤ 1 then
    Option.none
  else
    some ((var_list.zip rootVals).map (fun p => bps_broadcast p.2))

/-- Translation of `push_pull_xla` (source lines 45-95): compress, call the
XLA engine op, apply the compensating `+1` to every element when the handle's
first completion marker strictly exceeds its second, decompress, then divide
by `size()` when `op == Average` and async mode is off.  `h` is the marker
pair the engine's handle carries (a race outcome). -/
def push_pull_xla (compression : Compression) (others : List Tensor)
    (tensor : Tensor) (op : Option String) (average : Option Bool)
    (enable_async : Bool) (h : ℚ × ℚ) : Tensor :=
  let op := handle_average_backwards_compatibility op average
  let _true_op := push_pull_true_op op
  let byteps_size : ℚ := (bps_size others : ℚ)
  let tc := compression.compress tensor
  let tensor_compressed := tc.1
  let ctx := tc.2
  let sh := bps_push_pull_xla others tensor_compressed h
  let handle := sh.2
  let summed_tensor_compressed :=
    if handle.1 > handle.2 then tensorAddOne sh.1 else sh.1
  let summed_tensor := compression.decompress summed_tensor_compressed ctx
  if !enable_async then
    if op = Average then tensorDiv summed_tensor byteps_size else summed_tensor
  else
    summed_tensor

/-- Translation of `push_pull_xla_handle_out` (source lines 97-147): as
`push_pull_xla`, but the `compression.decompress` call is commented out in
the source ("decompression need to go after sync"), so the post-processed
tensor is returned still compressed, together with the handle. -/
def push_pull_xla_handle_out (compression : Compression) (others : List Tensor)
    (tensor : Tensor) (op : Option String) (average : Option Bool)
    (enable_async : Bool) (h : ℚ × ℚ) : Tensor × (ℚ × ℚ) :=
  let op := handle_average_backwards_compatibility op average
  let _true_op := push_pull_true_op op
  let byteps_size : ℚ := (bps_size others : ℚ)
  let tc := compression.compress tensor
  let tensor_compressed := tc.1
  let _ctx := tc.2
  let sh := bps_push_pull_xla others tensor_compressed h
  let handle := sh.2
  let summed_tensor_compressed :=
    if handle.1 > handle.2 then tensorAddOne sh.1 else sh.1
  let summed_tensor := summed_tensor_compressed
  let new_tensor :=
    if !enable_async then
      if op = Average then tensorDiv summed_tensor byteps_size else summed_tensor
    else
      summed_tensor
  (new_tensor, handle)

/-- Translation of `push_pull_xla_handle_out_v2` (source lines 149-197): no
marker-based correction at all; the division is applied to the still
compressed tensor and `compression.decompress` runs only at the very end, on
the already divided tensor. -/
def push_pull_xla_handle_out_v2 (compression : Compression) (others : List Tensor)
    (tensor : Tensor) (op : Option String) (average : Option Bool)
    (enable_async : Bool) (h : ℚ × ℚ) : Tensor × (ℚ × ℚ) :=
  let op := handle_average_backwards_compatibility op average
  let _true_op := push_pull_true_op op
  let byteps_size : ℚ := (bps_size others : ℚ)
  let tc := compression.compress tensor
  let tensor_compressed := tc.1
  let ctx := tc.2
  let sh := bps_push_pull_xla_v2 others tensor_compressed h
  let handle := sh.2
  let summed_tensor := sh.1
  let new_tensor :=
    if !enable_async then
      if op = Average then tensorDiv summed_tensor byteps_size else summed_tensor
    else
      summed_tensor
  let tensor_decompressed := compression.decompress new_tensor ctx
  (tensor_decompressed, handle)

/-- Modelled from the spec: `_push_pull_kickoff_xla` (outside the included
source) is the non-blocking kickoff of §4.1 — it submits the tensor for
reduction and returns the (to-be-)reduced tensor dataflow node, to be waited
on by a later sync. -/
def bps_push_pull_kickoff_xla (others : List Tensor) (mine : Tensor) : Tensor :=
  bps_push_pull others mine

/-- Translation of `push_pull_kickoff` (source lines 199-247): the
`compression.compress` call is commented out in the source
(`tensor_compressed = tensor`), so the raw tensor is handed to the engine,
and neither decompression nor the averaging post-processing is applied to
the returned node (both are commented out as well). -/
def push_pull_kickoff (compression : Compression) (others : List Tensor)
    (tensor : Tensor) (op : Option String) (average : Option Bool)
    (enable_async : Bool) : Tensor :=
  let op := handle_average_backwards_compatibility op average
  let _true_op := push_pull_true_op op
  let tensor_compressed := tensor
  let summed_tensor_compressed := bps_push_pull_kickoff_xla others tensor_compressed
  let new_tensor := summed_tensor_compressed
  new_tensor

/-- Modelled from the spec: `_sync_all_tensors` (outside the included source)
is the single-shot bulk synchronization of §4.2: it blocks until the whole
batch has committed and returns the batch's tensors preserving input order;
the callers additionally read a completion-marker handle tensor as the last
element of the returned list (`tmp_avg_grads[-1]`), so the model appends one,
holding the marker pair `h` of this administrative round. -/
def bps_sync_all_tensors (tensors : List Tensor) (h : ℚ × ℚ) : List Tensor :=
  tensors ++ [⟨DType.float32, [h.1, h.2]⟩]

/-- Translation of `push_pull_all_grads_sync_one_shot_xla` (source lines
248-282): per-gradient `push_pull_xla` (idx counting from 1), a single-shot
bulk sync over `grads + avg_grads` (the first half under throwaway names),
then the compensating `+1` on every element of every returned tensor when the
round's first marker strictly exceeds its second.  `othersFor i` and `hFor i`
are the other ranks' contributions and the engine marker pair for the
gradient submitted with index `i`; `oneShotH` is the bulk round's marker
pair.  (The source's `tf.print` debugging is side-effect only.) -/
def push_pull_all_grads_sync_one_shot_xla (compression : Compression)
    (othersFor : Nat → List Tensor) (hFor : Nat → ℚ × ℚ) (oneShotH : ℚ × ℚ)
    (grads : List Tensor) : List Tensor :=
  let new_grads_names := (List.enumFrom 1 grads).map
    (fun p => push_pull_xla compression (othersFor p.1) p.2
      Option.none Option.none false (hFor p.1))
  let avg_grads := new_grads_names
  let tmp_avg_grads := bps_sync_all_tensors (grads ++ avg_grads) oneShotH
  let tmp_tensor := (tmp_avg_grads.getLastD ⟨DType.float32, []⟩).data
  let avg_grads2 := tmp_avg_grads.dropLast
  if tmp_tensor.getD 0 0 > tmp_tensor.getD 1 0 then
    avg_grads2.map tensorAddOne
  else
    avg_grads2.map (fun aa => aa)

/-- Translation of `push_pull_all_grads_sync_one_shot_xla_wrapper` (source
lines 284-305): record which gradients are `float16`, cast those to
`float32`, run the one-shot path, and cast the recorded positions back to
`float16`. -/
def push_pull_all_grads_sync_one_shot_xla_wrapper (compression : Compression)
    (othersFor : Nat → List Tensor) (hFor : Nat → ℚ × ℚ) (oneShotH : ℚ × ℚ)
    (grads : List Tensor) : List Tensor :=
  let record := grads.map (fun item => decide (item.dtype = DType.float16))
  let new_grads := grads.map (fun item =>
    if item.dtype = DType.float16 then item.castTo DType.float32 else item)
  let new_grads2 := push_pull_all_grads_sync_one_shot_xla compression othersFor
    hFor oneShotH new_grads
  (record.zip new_grads2).map (fun p =>
    if p.1 then p.2.castTo DType.float16 else p.2)

/-- Modelled from the spec: `_my_barrier_handle_out` (outside the included
source) gathers the batch's completion handles into a single barrier token;
the Coordinator "guarantees it completes only after every constituent handle
has completed". -/
def bps_my_barrier_handle_out (handles : List (ℚ × ℚ)) : List (ℚ × ℚ) :=
  handles

/-- Modelled from the spec: whether the barrier has been released under the
completion schedule `sched` — the list of handle indices (counting from 1, as
issued by `enumerate(grads, 1)`) in the order the operations completed.  The
barrier is released exactly when every constituent handle has completed. -/
def bps_barrier_released (sched : List Nat) (barrier : List (ℚ × ℚ)) : Bool :=
  decide (∀ i, i < barrier.length → (i + 1) ∈ sched)

/-- Modelled from the spec: `_sync_tensors_handle_out` (outside the included
source), the per-tensor sync against the barrier of
`push_pull_all_grads_handle_xla`.  The claim under study concerns completed
operations, so the model is taken at the point where the operation has
committed: it returns the completion-marker pair the handle holds at sync
time (`syncMarker`, a race outcome) together with the synced tensor. -/
def bps_sync_tensors_handle_out (_barrier : List (ℚ × ℚ)) (tensor : Tensor)
    (syncMarker : ℚ × ℚ) : (ℚ × ℚ) × Tensor :=
  (syncMarker, tensor)

/-- Modelled from the spec: `_sync_tensors_handle_out_v2` (outside the
included source) blocks until the barrier covering the whole batch has been
released, then returns its tensor argument as the reduced result; a barrier
that never releases blocks forever, modelled as `none`. -/
def bps_sync_tensors_handle_out_v2 (tensor : Tensor) (released : Bool)
    (_idx : Nat) : Option Tensor :=
  if released then some tensor else Option.none

/-- Translation of `push_pull_all_grads_handle_xla` (source lines 307-333):
per-gradient `push_pull_xla_handle_out` (idx from 1), barrier over the
handles, per-tensor sync, and then `tf.cond(item[0] > item[1], ...)` whose
two branches are both `tf.identity(aa)` — the synced tensor is returned
unchanged whichever way the marker comparison goes.  `syncMarkerFor i` is the
marker pair the i-th (0-based) sync observes. -/
def push_pull_all_grads_handle_xla (compression : Compression)
    (othersFor : Nat → List Tensor) (hFor : Nat → ℚ × ℚ)
    (syncMarkerFor : Nat → ℚ × ℚ) (grads : List Tensor) : List Tensor :=
  let new_grads_names_and_handles := (List.enumFrom 1 grads).map
    (fun p => push_pull_xla_handle_out compression (othersFor p.1) p.2
      Option.none Option.none false (hFor p.1))
  let avg_grads := new_grads_names_and_handles.map Prod.fst
  let handles := new_grads_names_and_handles.map Prod.snd
  let barrier_handle := bps_my_barrier_handle_out handles
  let new_handles_grads := (List.enumFrom 0 avg_grads).map
    (fun p => bps_sync_tensors_handle_out barrier_handle p.2 (syncMarkerFor p.1))
  new_handles_grads.map (fun item => if item.1.1 > item.1.2 then item.2 else item.2)

/-- Translation of `push_pull_all_grads_handle_xla_v2` (source lines
335-369), the variant bound to `push_pull_all_grads` when XLA is enabled:
per-gradient `push_pull_xla_handle_out_v2` (idx from 1), one barrier over all
handles, then a per-tensor barrier-gated sync zipped positionally back onto
the gradients (idx from 1).  The `sparse_as_dense` conversion is dead code in
the source (guarded by `if False and ...`), and the model carries only dense
tensors. -/
def push_pull_all_grads_handle_xla_v2 (compression : Compression)
    (othersFor : Nat → List Tensor) (hFor : Nat → ℚ × ℚ) (sched : List Nat)
    (grads : List Tensor) : List (Option Tensor) :=
  let new_grads_names_and_handles := (List.enumFrom 1 grads).map
    (fun p => push_pull_xla_handle_out_v2 compression (othersFor p.1) p.2
      Option.none Option.none false (hFor p.1))
  let avg_grads := new_grads_names_and_handles.map Prod.fst
  let handles := new_grads_names_and_handles.map Prod.snd
  let barrier_handle := bps_my_barrier_handle_out handles
  let released := bps_barrier_released sched barrier_handle
  (List.enumFrom 1 avg_grads).map
    (fun p => bps_sync_tensors_handle_out_v2 p.2 released p.1)

/-! ### Pointwise characterisation of the modelled reduction -/

theorem bps_reduce_length (mine : List ℚ) (others : List (List ℚ))
    (h : ∀ o ∈ others, o.length = mine.length) :
    (bps_reduce mine others).length = mine.length := by
  induction others generalizing mine with
  | nil => rfl
  | cons o os ih =>
    have ho : o.length = mine.length := h o (List.mem_cons_self o os)
    have hlen : (List.zipWith (· + ·) mine o).length = mine.length := by
      rw [List.length_zipWith, ho]
      exact Nat.min_self mine.length
    have : bps_reduce mine (o :: os) = bps_reduce (List.zipWith (· + ·) mine o) os := rfl
    rw [this, ih (List.zipWith (· + ·) mine o)
      (fun o2 hm => by rw [hlen]; exact h o2 (List.mem_cons_of_mem o hm)), hlen]

theorem bps_reduce_getD (mine : List ℚ) (others : List (List ℚ))
    (h : ∀ o ∈ others, o.length = mine.length) (i : Nat) (hi : i < mine.length) :
    (bps_reduce mine others).getD i 0 =
      mine.getD i 0 + (others.map (fun o => o.getD i 0)).sum := by
  induction others generalizing mine with
  | nil => simp [bps_reduce]
  | cons o os ih =>
    have ho : o.length = mine.length := h o (List.mem_cons_self o os)
    have hlen : (List.zipWith (· + ·) mine o).length = mine.length := by
      rw [List.length_zipWith, ho]
      exact Nat.min_self mine.length
    have hstep : bps_reduce mine (o :: os) = bps_reduce (List.zipWith (· + ·) mine o) os := rfl
    have hz : (List.zipWith (· + ·) mine o).getD i 0 = mine.getD i 0 + o.getD i 0 := by
      have hiz : i < (List.zipWith (· + ·) mine o).length := by rw [hlen]; exact hi
      rw [List.getD_eq_getElem _ _ hiz, List.getElem_zipWith,
        List.getD_eq_getElem _ _ hi, List.getD_eq_getElem _ _ (by rw [ho]; exact hi)]
    rw [hstep, ih (List.zipWith (· + ·) mine o)
      (fun o2 hm => by rw [hlen]; exact h o2 (List.mem_cons_of_mem o hm))
      (by rw [hlen]; exact hi), hz, List.map_cons, List.sum_cons, add_assoc]

/-! ### Shared helper lemmas -/

theorem push_pull_none_sum_eq (others : List Tensor) (t : Tensor) :
    push_pull Compression.none others t (some Sum) Option.none false =
      bps_push_pull others t := by
  simp [push_pull, handle_average_backwards_compatibility, Compression.none,
    Sum, Average]

theorem push_pull_none_avg_eq (others : List Tensor) (t : Tensor) :
    push_pull Compression.none others t (some Average) Option.none false =
      tensorDiv (bps_push_pull others t) ((bps_size others : ℚ)) := by
  simp [push_pull, handle_average_backwards_compatibility, Compression.none,
    Average]

theorem getD_map_div (l : List ℚ) (q : ℚ) (i : Nat) (hi : i < l.length) :
    (l.map (· / q)).getD i 0 = l.getD i 0 / q := by
  rw [List.getD_eq_getElem _ _ (by simpa using hi), List.getElem_map,
    List.getD_eq_getElem _ _ hi]

theorem map_snd_enumFrom {α : Type} (n : Nat) (l : List α) :
    (List.enumFrom n l).map (fun p => p.2) = l :=
  List.enumFrom_map_snd n l

theorem one_shot_xla_eq (compression : Compression)
    (othersFor : Nat → List Tensor) (hFor : Nat → ℚ × ℚ) (oneShotH : ℚ × ℚ)
    (grads : List Tensor) :
    push_pull_all_grads_sync_one_shot_xla compression othersFor hFor oneShotH
        grads =
      (if oneShotH.1 > oneShotH.2 then
        (grads ++ (List.enumFrom 1 grads).map
          (fun p => push_pull_xla compression (othersFor p.1) p.2
            Option.none Option.none false (hFor p.1))).map tensorAddOne
      else
        grads ++ (List.enumFrom 1 grads).map
          (fun p => push_pull_xla compression (othersFor p.1) p.2
            Option.none Option.none false (hFor p.1))) := by
  simp only [push_pull_all_grads_sync_one_shot_xla, bps_sync_all_tensors,
    List.getLastD_concat, List.dropLast_concat, List.map_id']
  rfl

theorem handle_xla_returns_unsynced (compression : Compression)
    (othersFor : Nat → List Tensor) (hFor : Nat → ℚ × ℚ)
    (syncMarkerFor : Nat → ℚ × ℚ) (grads : List Tensor) :
    push_pull_all_grads_handle_xla compression othersFor hFor syncMarkerFor
        grads =
      ((List.enumFrom 1 grads).map
        (fun p => push_pull_xla_handle_out compression (othersFor p.1) p.2
          Option.none Option.none false (hFor p.1))).map Prod.fst := by
  simp only [push_pull_all_grads_handle_xla, bps_my_barrier_handle_out,
    bps_sync_tensors_handle_out, ite_self, List.map_map]
  exact map_snd_enumFrom 0 _

/-! ### Claim theorems -/

/-- C10: the engine call issued by `push_pull` is the same for every value of
the `op` argument — the result is the op-free `push_pull_raw`, postprocessed
by the division by `size()` exactly when `op == Average` (and async mode is
off, as the async branch skips it); in particular `Sum` and `Adasum` produce
identical results.  The translated `true_op` maps `Adasum` to itself, so had
it been consulted the two could not coincide. -/
theorem push_pull_engine_call_op_independent :
    ∀ (compression : Compression) (others : List Tensor) (tensor : Tensor)
      (enable_async : Bool) (op : String),
      (push_pull compression others tensor (some op) Option.none enable_async =
        if op = Average ∧ enable_async = false then
          tensorDiv (push_pull_raw compression others tensor) ((bps_size others : ℚ))
        else
          push_pull_raw compression others tensor) ∧
      push_pull compression others tensor (some Sum) Option.none enable_async =
        push_pull compression others tensor (some Adasum) Option.none enable_async ∧
      push_pull_true_op Adasum = Adasum := by
  intro compression others tensor enable_async op
  refine ⟨?_, ?_, ?_⟩
  · cases enable_async with
    | false =>
      by_cases hop : op = Average <;>
        simp [push_pull, push_pull_raw, handle_average_backwards_compatibility, hop]
    | true =>
      simp [push_pull, push_pull_raw, handle_average_backwards_compatibility]
  · cases enable_async <;>
      simp [push_pull, handle_average_backwards_compatibility,
        Sum, Adasum, Average]
  · simp [push_pull_true_op, Adasum, Average]

/-- C2 counterexample: `push_pull` does not reject `Adasum` — at a concrete
input it silently executes it exactly as `Sum` would, returning the plain
reduced tensor with no error, contradicting "rejected at every entry point
that accepts an op argument, including push_pull". -/
theorem push_pull_adasum_not_rejected :
    push_pull Compression.none [⟨DType.float32, [3]⟩] ⟨DType.float32, [1]⟩
        (some Adasum) Option.none false =
      push_pull Compression.none [⟨DType.float32, [3]⟩] ⟨DType.float32, [1]⟩
        (some Sum) Option.none false ∧
    push_pull Compression.none [⟨DType.float32, [3]⟩] ⟨DType.float32, [1]⟩
        (some Adasum) Option.none false = ⟨DType.float32, [4]⟩ := by
  refine ⟨rfl, ?_⟩
  simp only [push_pull, handle_average_backwards_compatibility, Compression.none,
    bps_push_pull, bps_reduce, bps_size, tensorDiv, push_pull_true_op,
    Adasum, Average]
  norm_num
  decide

/-- C2 (amended): the `DistributedOptimizer` factory rejects `Adasum` with a
descriptive `ValueError` before any construction, for both legacy and Keras
optimizers; but `push_pull` accepts `op = Adasum` without any error and
executes it exactly as `Sum` (no division, no rejection). -/
theorem adasum_rejected_only_by_optimizer_factory :
    (∀ n : Nat, DistributedOptimizer OptimizerKind.legacy Adasum n =
      Except.error "op == Adasum is not supported yet with ") ∧
    (∀ n : Nat, DistributedOptimizer OptimizerKind.keras Adasum n =
      Except.error "op == Adasum is not supported yet with Keras") ∧
    ∀ (compression : Compression) (others : List Tensor) (tensor : Tensor)
      (enable_async : Bool),
      push_pull compression others tensor (some Adasum) Option.none enable_async =
        push_pull compression others tensor (some Sum) Option.none enable_async := by
  refine ⟨fun n => by simp [DistributedOptimizer], fun n => by simp [DistributedOptimizer], ?_⟩
  intro compression others tensor enable_async
  cases enable_async <;>
    simp [push_pull, handle_average_backwards_compatibility, Sum, Adasum, Average]

/-- C3: with async-training mode enabled, a push-pull requested with
`Average` returns the raw reduced (decompressed) tensor with no division by
`size()` applied — the averaging step is disabled. -/
theorem push_pull_async_average_no_division :
    ∀ (compression : Compression) (others : List Tensor) (tensor : Tensor),
      push_pull compression others tensor (some Average) Option.none true =
        push_pull_raw compression others tensor := by
  intro compression others tensor
  simp [push_pull, push_pull_raw, handle_average_backwards_compatibility]

/-- C7: enabling async mode (`BYTEPS_ENABLE_ASYNC` nonzero) with a configured
worker count not greater than 1 makes `_DistributedOptimizer` construction
fail immediately with the assertion "Async is only valid for distributed
training". -/
theorem async_requires_multiple_workers (a w : Int) (ha : a ≠ 0) (hw : w ≤ 1) :
    distributed_optimizer_init_async_check a (some w) =
      Except.error "Async is only valid for distributed training" := by
  have hng : ¬ w > 1 := not_lt.mpr hw
  simp [distributed_optimizer_init_async_check, ha, hng]

/-- C7 witness: the check fails at the concrete configuration
`BYTEPS_ENABLE_ASYNC=1`, `DMLC_NUM_WORKER=1`. -/
theorem async_requires_multiple_workers_witness :
    (1 : Int) ≠ 0 ∧ (1 : Int) ≤ 1 ∧
    distributed_optimizer_init_async_check 1 (some 1) =
      Except.error "Async is only valid for distributed training" :=
  ⟨by decide, by decide,
    async_requires_multiple_workers 1 1 (by decide) (by decide)⟩

/-- C4: with a single participant (`size() == 1`, i.e. no other
contributors), every collective operation is a local no-op: `push_pull` with
`Average` returns the input unchanged, `compute_gradients` and the tape's
`gradient` return the locally computed gradients unchanged, and
`broadcast_variables` (the regular variant bound to `broadcast_variables`)
does nothing. -/
theorem size_one_collectives_are_identity :
    ∀ (tensor : Tensor) (enable_async : Bool)
      (pp_grads : List Tensor → List Tensor)
      (gradients : List (Tensor × Nat)) (tape_grads : List Tensor)
      (var_list rootVals : List Tensor),
      push_pull Compression.none [] tensor (some Average) Option.none false = tensor ∧
      compute_gradients 1 enable_async pp_grads gradients = gradients ∧
      distributed_gradient_tape_gradient 1 pp_grads tape_grads = tape_grads ∧
      broadcast_variables_regular 1 var_list rootVals = Option.none := by
  intro tensor enable_async pp_grads gradients tape_grads var_list rootVals
  refine ⟨?_, ?_, ?_, ?_⟩
  · simp [push_pull, handle_average_backwards_compatibility, Compression.none,
      bps_push_pull, bps_reduce, bps_size, tensorDiv]
  · simp [compute_gradients]
  · simp [distributed_gradient_tape_gradient]
  · simp [broadcast_variables_regular]

/-- C1: with the default compression and async mode off, a push-pull
requested with `Sum` returns the elementwise sum of the tensor across all
participating ranks unchanged, and one requested with `Average` returns that
sum with every element divided by `size()`; both keep the tensor's own
element type (the division operates on `size()` cast into that type), and
the division is the only post-processing, applied exactly for `Average`. -/
theorem push_pull_sum_average_pointwise (others : List Tensor) (t : Tensor)
    (hlen : ∀ o ∈ others, o.data.length = t.data.length) :
    (push_pull Compression.none others t (some Sum) Option.none false).dtype
      = t.dtype ∧
    (push_pull Compression.none others t (some Average) Option.none false).dtype
      = t.dtype ∧
    (push_pull Compression.none others t (some Sum) Option.none false).data.length
      = t.data.length ∧
    (push_pull Compression.none others t (some Average) Option.none false).data.length
      = t.data.length ∧
    ∀ i, i < t.data.length →
      (push_pull Compression.none others t (some Sum) Option.none false).data.getD i 0
        = t.data.getD i 0 + (others.map (fun o => o.data.getD i 0)).sum ∧
      (push_pull Compression.none others t (some Average) Option.none false).data.getD i 0
        = (t.data.getD i 0 + (others.map (fun o => o.data.getD i 0)).sum)
            / ((bps_size others : ℚ)) := by
  have hlen2 : ∀ o ∈ others.map Tensor.data, o.length = t.data.length := by
    intro o ho
    obtain ⟨a, ha, rfl⟩ := List.mem_map.mp ho
    exact hlen a ha
  have hred_len : (bps_reduce t.data (others.map Tensor.data)).length
      = t.data.length := bps_reduce_length _ _ hlen2
  refine ⟨?_, ?_, ?_, ?_, ?_⟩
  · rw [push_pull_none_sum_eq]; rfl
  · rw [push_pull_none_avg_eq]; rfl
  · rw [push_pull_none_sum_eq]; exact hred_len
  · rw [push_pull_none_avg_eq]
    simpa [tensorDiv, bps_push_pull] using hred_len
  · intro i hi
    have hsum := bps_reduce_getD t.data (others.map Tensor.data) hlen2 i hi
    have hsum2 : (bps_reduce t.data (others.map Tensor.data)).getD i 0
        = t.data.getD i 0 + (others.map (fun o => o.data.getD i 0)).sum := by
      rw [hsum, List.map_map]
      rfl
    constructor
    · rw [push_pull_none_sum_eq]
      exact hsum2
    · rw [push_pull_none_avg_eq]
      show ((bps_reduce t.data (others.map Tensor.data)).map
        (· / ((bps_size others : ℚ)))).getD i 0 = _
      rw [getD_map_div _ _ i (by rw [hred_len]; exact hi), hsum2]

/-- C1 witness: two other ranks contribute `[3]` and `[5]` to this rank's
`[1]`; `Sum` yields `[9]` pointwise and `Average` yields `[9/3]`. -/
theorem push_pull_sum_average_pointwise_witness :
    (∀ o ∈ ([⟨DType.float32, [3]⟩, ⟨DType.float32, [5]⟩] : List Tensor),
      o.data.length = (Tensor.mk DType.float32 [1]).data.length) ∧
    ((push_pull Compression.none [⟨DType.float32, [3]⟩, ⟨DType.float32, [5]⟩]
        ⟨DType.float32, [1]⟩ (some Sum) Option.none false).dtype
      = (Tensor.mk DType.float32 [1]).dtype ∧
    (push_pull Compression.none [⟨DType.float32, [3]⟩, ⟨DType.float32, [5]⟩]
        ⟨DType.float32, [1]⟩ (some Average) Option.none false).dtype
      = (Tensor.mk DType.float32 [1]).dtype ∧
    (push_pull Compression.none [⟨DType.float32, [3]⟩, ⟨DType.float32, [5]⟩]
        ⟨DType.float32, [1]⟩ (some Sum) Option.none false).data.length
      = (Tensor.mk DType.float32 [1]).data.length ∧
    (push_pull Compression.none [⟨DType.float32, [3]⟩, ⟨DType.float32, [5]⟩]
        ⟨DType.float32, [1]⟩ (some Average) Option.none false).data.length
      = (Tensor.mk DType.float32 [1]).data.length ∧
    ∀ i, i < (Tensor.mk DType.float32 [1]).data.length →
      (push_pull Compression.none [⟨DType.float32, [3]⟩, ⟨DType.float32, [5]⟩]
          ⟨DType.float32, [1]⟩ (some Sum) Option.none false).data.getD i 0
        = (Tensor.mk DType.float32 [1]).data.getD i 0 +
            (([⟨DType.float32, [3]⟩, ⟨DType.float32, [5]⟩] : List Tensor).map
              (fun o => o.data.getD i 0)).sum ∧
      (push_pull Compression.none [⟨DType.float32, [3]⟩, ⟨DType.float32, [5]⟩]
          ⟨DType.float32, [1]⟩ (some Average) Option.none false).data.getD i 0
        = ((Tensor.mk DType.float32 [1]).data.getD i 0 +
            (([⟨DType.float32, [3]⟩, ⟨DType.float32, [5]⟩] : List Tensor).map
              (fun o => o.data.getD i 0)).sum)
            / ((bps_size ([⟨DType.float32, [3]⟩, ⟨DType.float32, [5]⟩] : List Tensor) : ℚ))) :=
  ⟨by decide, push_pull_sum_average_pointwise _ _ (by decide)⟩

/-- C5 counterexample: on the barrier-based sync path
(`push_pull_all_grads_handle_xla`), with a single gradient `[5]` at
`size() == 1` whose sync observes the marker pair `(1, 0)` — first marker
strictly exceeding the second — the returned tensor is `[5]`, unchanged: no
compensating `+1` is applied (the source's `tf.cond` has `tf.identity` in
both branches), contradicting "applied by every sync path". -/
theorem barrier_sync_no_compensation :
    push_pull_all_grads_handle_xla Compression.none (fun _ => [])
        (fun _ => (0, 0)) (fun _ => (1, 0)) [⟨DType.float32, [5]⟩]
      = [⟨DType.float32, [5]⟩] ∧
    ((1 : ℚ), (0 : ℚ)).1 > ((1 : ℚ), (0 : ℚ)).2 ∧
    tensorAddOne ⟨DType.float32, [5]⟩ ≠ (⟨DType.float32, [5]⟩ : Tensor) := by
  refine ⟨?_, by norm_num, ?_⟩
  · rw [handle_xla_returns_unsynced]
    simp only [List.enumFrom, List.map_cons, List.map_nil]
    simp only [push_pull_xla_handle_out, bps_push_pull_xla, bps_push_pull,
      bps_reduce, bps_size, Compression.none, handle_average_backwards_compatibility,
      push_pull_true_op, tensorDiv, tensorAddOne, Average, Sum]
    norm_num
  · simp only [tensorAddOne, ne_eq, Tensor.mk.injEq, List.map_cons, List.map_nil]
    norm_num

/-- C5 (amended): the compensating `+1` (every element incremented when the
handle's first completion marker strictly exceeds its second, the tensor
unchanged otherwise) is applied on the per-tensor XLA path (`push_pull_xla`)
and on the one-shot bulk path (`push_pull_all_grads_sync_one_shot_xla`,
uniformly for the whole batch from the round's marker pair); the
barrier-based handle paths apply no correction: `push_pull_all_grads_handle_xla`
returns the synced tensors unchanged for every marker outcome (its
conditional is the identity in both branches). -/
theorem compensation_per_path :
    (∀ (others : List Tensor) (t : Tensor) (h : ℚ × ℚ),
      push_pull_xla Compression.none others t (some Sum) Option.none false h =
        if h.1 > h.2 then tensorAddOne (bps_push_pull others t)
        else bps_push_pull others t) ∧
    (∀ (compression : Compression) (othersFor : Nat → List Tensor)
        (hFor : Nat → ℚ × ℚ) (oneShotH : ℚ × ℚ) (grads : List Tensor),
      push_pull_all_grads_sync_one_shot_xla compression othersFor hFor oneShotH
          grads =
        (if oneShotH.1 > oneShotH.2 then
          (grads ++ (List.enumFrom 1 grads).map
            (fun p => push_pull_xla compression (othersFor p.1) p.2
              Option.none Option.none false (hFor p.1))).map tensorAddOne
        else
          grads ++ (List.enumFrom 1 grads).map
            (fun p => push_pull_xla compression (othersFor p.1) p.2
              Option.none Option.none false (hFor p.1)))) ∧
    (∀ (compression : Compression) (othersFor : Nat → List Tensor)
        (hFor : Nat → ℚ × ℚ) (m1 m2 : Nat → ℚ × ℚ) (grads : List Tensor),
      push_pull_all_grads_handle_xla compression othersFor hFor m1 grads =
        push_pull_all_grads_handle_xla compression othersFor hFor m2 grads) ∧
    (∀ (compression : Compression) (othersFor : Nat → List Tensor)
        (hFor : Nat → ℚ × ℚ) (syncMarkerFor : Nat → ℚ × ℚ)
        (grads : List Tensor),
      push_pull_all_grads_handle_xla compression othersFor hFor syncMarkerFor
          grads =
        ((List.enumFrom 1 grads).map
          (fun p => push_pull_xla_handle_out compression (othersFor p.1) p.2
            Option.none Option.none false (hFor p.1))).map Prod.fst) := by
  refine ⟨?_, one_shot_xla_eq, ?_, handle_xla_returns_unsynced⟩
  · intro others t h
    by_cases hc : h.1 > h.2 <;>
      simp [push_pull_xla, bps_push_pull_xla, Compression.none,
        handle_average_backwards_compatibility, Sum, Average, hc]
  · intro compression othersFor hFor m1 m2 grads
    rw [handle_xla_returns_unsynced, handle_xla_returns_unsynced]

/-- C6: the barrier-based bulk path `push_pull_all_grads_handle_xla_v2`
returns, for a batch of `n` gradients, exactly `n` reduced tensors with the
`i`-th result the reduction of the `i`-th input gradient, for every
completion schedule in which all `n` handles complete — i.e. regardless of
the order in which the individual operations complete. -/
theorem barrier_v2_preserves_order (compression : Compression)
    (othersFor : Nat → List Tensor) (hFor : Nat → ℚ × ℚ) (sched : List Nat)
    (grads : List Tensor)
    (hsched : ∀ i, i < grads.length → (i + 1) ∈ sched) :
    (push_pull_all_grads_handle_xla_v2 compression othersFor hFor sched
        grads).length = grads.length ∧
    push_pull_all_grads_handle_xla_v2 compression othersFor hFor sched grads =
      (List.enumFrom 1 grads).map (fun p =>
        some (push_pull_xla_handle_out_v2 compression (othersFor p.1) p.2
          Option.none Option.none false (hFor p.1)).1) := by
  have hrel : bps_barrier_released sched
      (bps_my_barrier_handle_out
        (((List.enumFrom 1 grads).map
          (fun p => push_pull_xla_handle_out_v2 compression (othersFor p.1) p.2
            Option.none Option.none false (hFor p.1))).map Prod.snd)) = true := by
    rw [bps_barrier_released, decide_eq_true_eq]
    intro i hi
    refine hsched i ?_
    simpa [bps_my_barrier_handle_out, List.enumFrom_length] using hi
  have heq : push_pull_all_grads_handle_xla_v2 compression othersFor hFor sched
      grads =
      (List.enumFrom 1 grads).map (fun p =>
        some (push_pull_xla_handle_out_v2 compression (othersFor p.1) p.2
          Option.none Option.none false (hFor p.1)).1) := by
    simp only [push_pull_all_grads_handle_xla_v2]
    rw [hrel]
    simp only [bps_sync_tensors_handle_out_v2, if_pos rfl, List.map_map]
    have hsnd : ∀ (l : List Tensor),
        (List.enumFrom 1 l).map (fun p => some p.2) = l.map some := by
      intro l
      conv_rhs => rw [← map_snd_enumFrom 1 l]
      rw [List.map_map]
      rfl
    rw [show (fun p => if True then some (Prod.snd p) else Option.none) =
        (fun p : Nat × Tensor => some p.2) from by funext p; simp]
    rw [hsnd, List.map_map]
    rfl
  exact ⟨by rw [heq]; simp [List.enumFrom_length], heq⟩

/-- C6 witness: three gradients, completion schedule `[3, 1, 2]` (all three
handles complete, out of submission order); the results come back in input
order. -/
theorem barrier_v2_preserves_order_witness :
    (∀ i, i < ([⟨DType.float32, [1]⟩, ⟨DType.float32, [2]⟩,
        ⟨DType.float32, [3]⟩] : List Tensor).length → (i + 1) ∈ [3, 1, 2]) ∧
    ((push_pull_all_grads_handle_xla_v2 Compression.none (fun _ => [])
        (fun _ => (0, 0)) [3, 1, 2]
        [⟨DType.float32, [1]⟩, ⟨DType.float32, [2]⟩, ⟨DType.float32, [3]⟩]).length
      = ([⟨DType.float32, [1]⟩, ⟨DType.float32, [2]⟩,
          ⟨DType.float32, [3]⟩] : List Tensor).length ∧
    push_pull_all_grads_handle_xla_v2 Compression.none (fun _ => [])
        (fun _ => (0, 0)) [3, 1, 2]
        [⟨DType.float32, [1]⟩, ⟨DType.float32, [2]⟩, ⟨DType.float32, [3]⟩] =
      (List.enumFrom 1 ([⟨DType.float32, [1]⟩, ⟨DType.float32, [2]⟩,
          ⟨DType.float32, [3]⟩] : List Tensor)).map (fun p =>
        some (push_pull_xla_handle_out_v2 Compression.none ((fun _ => []) p.1) p.2
          Option.none Option.none false ((fun _ => ((0 : ℚ), (0 : ℚ))) p.1)).1)) :=
  ⟨by decide, barrier_v2_preserves_order _ _ _ _ _ (by decide)⟩

/-- A lossless non-identity compression (compress doubles every element,
decompress halves), used to observe whether decompression is applied. -/
def compTimes2 : Compression :=
  ⟨fun t => (⟨t.dtype, t.data.map (· * 2)⟩, some t.dtype),
   fun t _ => ⟨t.dtype, t.data.map (· / 2)⟩⟩

/-- C8 counterexample: in the handle-out variant `push_pull_xla_handle_out`
(the `compression.decompress` call is commented out in the source), a
push-pull of `[1]` at `size() == 1` under a doubling compression returns
`[2]` — the still-compressed reduced tensor — whereas decompressing the
transferred result would give `[1]`; the bracketing does not hold in every
variant. -/
theorem handle_out_skips_decompress :
    (push_pull_xla_handle_out compTimes2 [] ⟨DType.float32, [1]⟩ (some Sum)
        Option.none false (0, 0)).1 = ⟨DType.float32, [2]⟩ ∧
    compTimes2.decompress
        (bps_push_pull [] (compTimes2.compress ⟨DType.float32, [1]⟩).1)
        (compTimes2.compress ⟨DType.float32, [1]⟩).2 = ⟨DType.float32, [1]⟩ ∧
    (⟨DType.float32, [2]⟩ : Tensor) ≠ (⟨DType.float32, [1]⟩ : Tensor) := by
  refine ⟨?_, ?_, ?_⟩
  · simp only [push_pull_xla_handle_out, bps_push_pull_xla, bps_push_pull,
      bps_reduce, bps_size, compTimes2, handle_average_backwards_compatibility,
      push_pull_true_op, tensorAddOne, tensorDiv, Sum, Average]
    norm_num
  · simp only [compTimes2, bps_push_pull, bps_reduce]
    norm_num
  · simp only [ne_eq, Tensor.mk.injEq]
    norm_num

/-- C8 (amended): `push_pull`, `push_pull_xla` and the two handle-out
variants call `compress` before the wire transfer; `push_pull` and
`push_pull_xla` apply `decompress` to the transferred (and, for xla,
marker-corrected) result before the averaging post-processing, so with the
identity compression the returned tensor is the reduced tensor exactly.  The
bracketing does not hold in the remaining variants: `push_pull_xla_handle_out`
never calls `decompress` (its post-processing acts on the still-compressed
tensor, which is returned as-is), `push_pull_xla_handle_out_v2` calls
`decompress` only after the averaging division, and `push_pull_kickoff`
calls neither `compress` nor `decompress` — it hands the raw tensor to the
engine and returns the reduced node untouched, whatever compression is
injected. -/
theorem compress_decompress_bracketing :
    (∀ (compression : Compression) (others : List Tensor) (t : Tensor)
        (op : Option String) (average : Option Bool) (enable_async : Bool),
      push_pull compression others t op average enable_async =
        (if handle_average_backwards_compatibility op average = Average
            ∧ enable_async = false then
          tensorDiv (compression.decompress
            (bps_push_pull others (compression.compress t).1)
            (compression.compress t).2) ((bps_size others : ℚ))
        else
          compression.decompress
            (bps_push_pull others (compression.compress t).1)
            (compression.compress t).2)) ∧
    (∀ (compression : Compression) (others : List Tensor) (t : Tensor)
        (op : Option String) (average : Option Bool) (enable_async : Bool)
        (h : ℚ × ℚ),
      push_pull_xla compression others t op average enable_async h =
        (if handle_average_backwards_compatibility op average = Average
            ∧ enable_async = false then
          tensorDiv (compression.decompress
            (if h.1 > h.2 then
              tensorAddOne (bps_push_pull others (compression.compress t).1)
            else bps_push_pull others (compression.compress t).1)
            (compression.compress t).2) ((bps_size others : ℚ))
        else
          compression.decompress
            (if h.1 > h.2 then
              tensorAddOne (bps_push_pull others (compression.compress t).1)
            else bps_push_pull others (compression.compress t).1)
            (compression.compress t).2)) ∧
    (∀ (compression : Compression) (others : List Tensor) (t : Tensor)
        (op : Option String) (average : Option Bool) (enable_async : Bool)
        (h : ℚ × ℚ),
      (push_pull_xla_handle_out compression others t op average enable_async h).1 =
        (if handle_average_backwards_compatibility op average = Average
            ∧ enable_async = false then
          tensorDiv
            (if h.1 > h.2 then
              tensorAddOne (bps_push_pull others (compression.compress t).1)
            else bps_push_pull others (compression.compress t).1)
            ((bps_size others : ℚ))
        else
          (if h.1 > h.2 then
            tensorAddOne (bps_push_pull others (compression.compress t).1)
          else bps_push_pull others (compression.compress t).1))) ∧
    (∀ (compression : Compression) (others : List Tensor) (t : Tensor)
        (op : Option String) (average : Option Bool) (enable_async : Bool)
        (h : ℚ × ℚ),
      (push_pull_xla_handle_out_v2 compression others t op average enable_async h).1 =
        compression.decompress
          (if handle_average_backwards_compatibility op average = Average
              ∧ enable_async = false then
            tensorDiv (bps_push_pull others (compression.compress t).1)
              ((bps_size others : ℚ))
          else
            bps_push_pull others (compression.compress t).1)
          (compression.compress t).2) ∧
    (∀ (compression : Compression) (others : List Tensor) (t : Tensor)
        (op : Option String) (average : Option Bool) (enable_async : Bool),
      push_pull_kickoff compression others t op average enable_async =
        bps_push_pull others t) ∧
    (∀ (others : List Tensor) (t : Tensor),
      push_pull Compression.none others t (some Sum) Option.none false =
        bps_push_pull others t) := by
  refine ⟨?_, ?_, ?_, ?_, fun _ _ _ _ _ _ => rfl, push_pull_none_sum_eq⟩
  · intro compression others t op average enable_async
    cases enable_async with
    | false =>
      by_cases hop : handle_average_backwards_compatibility op average = Average <;>
        simp [push_pull, hop]
    | true => simp [push_pull]
  · intro compression others t op average enable_async h
    cases enable_async with
    | false =>
      by_cases hop : handle_average_backwards_compatibility op average = Average <;>
        simp [push_pull_xla, bps_push_pull_xla, hop]
    | true => simp [push_pull_xla, bps_push_pull_xla]
  · intro compression others t op average enable_async h
    cases enable_async with
    | false =>
      by_cases hop : handle_average_backwards_compatibility op average = Average <;>
        simp [push_pull_xla_handle_out, bps_push_pull_xla, hop]
    | true => simp [push_pull_xla_handle_out, bps_push_pull_xla]
  · intro compression others t op average enable_async h
    cases enable_async with
    | false =>
      by_cases hop : handle_average_backwards_compatibility op average = Average <;>
        simp [push_pull_xla_handle_out_v2, bps_push_pull_xla_v2, hop]
    | true => simp [push_pull_xla_handle_out_v2, bps_push_pull_xla_v2]

theorem wrapper_dtype_aux (g : Tensor → Tensor)
    (hg : ∀ t2, (g t2).dtype = t2.dtype) :
    ∀ (grads rest : List Tensor),
      ((((grads.map (fun item => decide (item.dtype = DType.float16))).zip
        ((grads.map (fun item =>
          if item.dtype = DType.float16 then item.castTo DType.float32
          else item)).map g ++ rest)).map
        (fun p => if p.1 then p.2.castTo DType.float16 else p.2)).map
        Tensor.dtype)
      = grads.map Tensor.dtype := by
  intro grads
  induction grads with
  | nil => intro rest; simp
  | cons a l ih =>
    intro rest
    simp only [List.map_cons, List.cons_append, List.zip_cons_cons,
      List.cons.injEq]
    refine ⟨?_, ih rest⟩
    by_cases ha : a.dtype = DType.float16
    · simp [ha, Tensor.castTo]
    · simp [ha, hg]

/-- C9: `push_pull_all_grads_sync_one_shot_xla_wrapper` returns a list of
the same length as its input in which each element has the dtype of the
corresponding input element — `float16` inputs are cast to `float32` for the
reduction and cast back afterwards, all other inputs keep their dtype
throughout. -/
theorem one_shot_wrapper_preserves_dtypes :
    ∀ (compression : Compression) (othersFor : Nat → List Tensor)
      (hFor : Nat → ℚ × ℚ) (oneShotH : ℚ × ℚ) (grads : List Tensor),
      (push_pull_all_grads_sync_one_shot_xla_wrapper compression othersFor hFor
        oneShotH grads).map Tensor.dtype = grads.map Tensor.dtype ∧
      (push_pull_all_grads_sync_one_shot_xla_wrapper compression othersFor hFor
        oneShotH grads).length = grads.length := by
  intro compression othersFor hFor oneShotH grads
  have hmap : (push_pull_all_grads_sync_one_shot_xla_wrapper compression
      othersFor hFor oneShotH grads).map Tensor.dtype = grads.map Tensor.dtype := by
    simp only [push_pull_all_grads_sync_one_shot_xla_wrapper]
    rw [one_shot_xla_eq]
    by_cases hc : oneShotH.1 > oneShotH.2
    · rw [if_pos hc, List.map_append]
      exact wrapper_dtype_aux tensorAddOne (fun t2 => rfl) grads _
    · rw [if_neg hc,
        show grads.map (fun item =>
            if item.dtype = DType.float16 then item.castTo DType.float32
            else item)
          = (grads.map (fun item =>
            if item.dtype = DType.float16 then item.castTo DType.float32
            else item)).map id from (List.map_id _).symm]
      exact wrapper_dtype_aux id (fun t2 => rfl) grads _
  refine ⟨hmap, ?_⟩
  have := congrArg List.length hmap
  simpa [List.length_map] using this

end BytePS
